import Mathlib

/-!
Verification of the prioritized publishing queue and batch-processing engine
(`src/listing/batch_processor.py` and `src/listing/queue_manager.py`).

The development is a shallow embedding: the Python functions are translated
into executable Lean definitions.  Machine-level concerns that the claims do
not touch (logging, metrics side effects, the real process/thread pools) are
dropped; everything that decides a claim (list manipulation, the retry
bookkeeping, chunking, the scheduler loop guards) is translated line by line.

Timing and the outcomes of the external optimizer/publisher capabilities are
environmental: the spec (section 1) treats the AI inference and the
marketplace publishers as opaque external collaborators, and the in-repo
`_optimize_single_item` is an explicit placeholder ("per ora mock") whose
`OptimizationResult(title=..., description=..., metadata=...)` keyword
arguments do not even exist on the dataclass declared in `ai_optimizer.py`
line 26 (`optimized_title`, `optimized_description`, `keywords`,
`sentiment_score`, `estimated_ctr`, `confidence`), so a literal run raises
`TypeError` on every invocation.  The model therefore passes the outcome of
each per-item invocation in as an oracle (`WorkerBehavior`, `RetryEnv`),
covering both the literal placeholder (always raises) and the intended
capability (may succeed, raise, or be slow) as instances.
-/

namespace Dropush

/-- A product dictionary as consumed by `BatchProcessor` (`item.get('title', ...)`,
`item.get('description', ...)`, `item.get('category', 'General')`).  Only the keys
the processor reads are modelled; a missing key is `none`. -/
structure Item where
  title : Option String
  description : Option String
  category : Option String
  deriving DecidableEq, Repr

/-- `OptimizationResult` dataclass, `ai_optimizer.py` lines 25-33.  Python floats
are modelled as rationals. -/
structure OptimizationResult where
  optimized_title : String
  optimized_description : String
  keywords : List String
  sentiment_score : ℚ
  estimated_ctr : ℚ
  confidence : ℚ
  deriving DecidableEq, Repr

/-- A structured failure dictionary as built by `batch_processor.py`
(`{'error': ..., 'item': ..., 'type': ...}`; the plain timeout entry of line 256
has no `type` key, modelled as `none`). -/
structure FailedEntry where
  error : String
  item : Item
  type : Option String
  deriving DecidableEq, Repr

/-- A per-item result value as it flows through the heterogeneous Python lists of
`batch_processor.py`: either an `OptimizationResult` instance or a failure
dictionary.  Python equality between an `OptimizationResult` and a `dict` is
always `False` (the dataclass `__eq__` returns `NotImplemented` for a foreign
class and so does `dict.__eq__`), which the two disjoint constructors mirror. -/
inductive PyResult where
  | opt (r : OptimizationResult)
  | err (e : FailedEntry)
  deriving DecidableEq, Repr

/-- Exceptions that escape the modelled fragments. -/
inductive PyError where
  | valueError (msg : String)
  deriving DecidableEq, Repr

/-- `BatchConfig` dataclass, `batch_processor.py` lines 35-44, with the source
defaults.  `max_workers` defaults to `mp.cpu_count()`, which is environmental;
the theorems never depend on it.  `timeout_per_item` is the Python float
`5.0` in seconds; the only operations the code performs on it are doubling and
comparison against a duration, so it is modelled over ℤ (sub-second precision
plays no role in any claim). -/
structure BatchConfig where
  batch_size : ℕ := 100
  max_workers : ℕ := 4
  max_concurrent_batches : ℕ := 4
  enable_gpu : Bool := true
  timeout_per_item : ℤ := 5
  retry_failed : Bool := true
  backpressure_threshold : ℕ := 1000
  deriving Repr

/-- Outcome of one invocation of the per-item optimize capability
(environmental, see the file header). -/
inductive OptOutcome where
  | ok (r : OptimizationResult)
  | raises (msg : String)
  deriving DecidableEq, Repr

/-- How the worker future for one item behaves in `_process_single_batch`
(`batch_processor.py` lines 246-264): it completes within `timeout_per_item`
(with the optimize capability either returning or raising, both handled inside
`_process_item_cpu`), or it is still running when `asyncio.wait_for` times out,
or the future itself raises (pool-level failure). -/
inductive WorkerBehavior where
  | completes (o : OptOutcome)
  | timesOut
  | poolFailure (msg : String)
  deriving Repr

/-- `_process_item_cpu`, `batch_processor.py` lines 268-292: the optimize call
runs under `try/except`; an exception becomes `{'error': str(e), 'item': item,
'type': 'processing_error'}`. -/
def processItemCpu (item : Item) (o : OptOutcome) : PyResult :=
  match o with
  | .ok r => .opt r
  | .raises msg => .err ⟨msg, item, some "processing_error"⟩

/-- Message of the `ValueError` raised by `futures.index(future)` on
`batch_processor.py` lines 258 and 263: `asyncio.as_completed(futures)` yields
fresh wrapper coroutines, never the members of `futures` (documented behavior
of every Python version), so the `.index` lookup in both `except` branches
always fails. -/
def cpuIndexErrMsg : String := "value is not in list"

/-- The result-collection loop of `_process_single_batch`, `batch_processor.py`
lines 246-266.  When every worker completes, one `PyResult` per item is
collected (the source collects them in completion order; the model uses
submission order, and no theorem depends on intra-chunk order beyond content
and count).  The first timeout or pool failure reaches an `except` branch whose
`batch[futures.index(future)]` raises `ValueError` (see `cpuIndexErrMsg`),
which escapes the whole call. -/
def cpuLoop (behav : ℕ → WorkerBehavior) : ℕ → List Item → Except PyError (List PyResult)
  | _, [] => .ok []
  | i, item :: rest =>
    match behav i with
    | .completes o => (cpuLoop behav (i + 1) rest).map (processItemCpu item o :: ·)
    | .timesOut => .error (.valueError cpuIndexErrMsg)
    | .poolFailure _ => .error (.valueError cpuIndexErrMsg)

/-- CPU path of `_process_single_batch` (`batch_processor.py` lines 219-266);
the backpressure semaphore bookkeeping does not alter the returned value and is
not modelled. -/
def processSingleBatchCpu (behav : ℕ → WorkerBehavior) (batch : List Item) :
    Except PyError (List PyResult) :=
  cpuLoop behav 0 batch

/-- What the three awaited GPU batch calls of `_process_batch_gpu`
(`batch_processor.py` lines 312-325) do: either one of them raises or they
return the three lists.  Environmental (GPU inference). -/
inductive GpuCalls where
  | raises (msg : String)
  | returns (titles descriptions : List String) (keywords : List (List String))
  deriving Repr

/-- Per-chunk GPU environment: whether `from src.listing.gpu_optimizer import
GPUBatchOptimizer` succeeds (`gpu_optimizer.py` imports `torch` and
`transformers` at module level, so this is environmental and deterministic
within one run), and what the batch calls do. -/
structure GpuChunkEnv where
  importOk : Bool
  calls : GpuCalls

/-- Message of the `TypeError` raised at `batch_processor.py` line 331: the
`OptimizationResult(title=..., description=..., keywords=..., sentiment_score=...,
metadata=...)` call uses keyword arguments that do not exist on the dataclass
(`ai_optimizer.py` line 26). -/
def gpuTypeErrMsg : String := "OptimizationResult got an unexpected keyword argument title"

/-- One iteration of the per-item result construction of `_process_batch_gpu`,
`batch_processor.py` lines 329-347.  The indexings `optimized_titles[i]` etc.
are evaluated first (an out-of-range index raises `IndexError`); otherwise the
constructor call itself raises `TypeError` (see `gpuTypeErrMsg`).  Both are
caught by the inner `except Exception` and appended as a
`gpu_processing_error` entry, so each item yields exactly one entry. -/
def gpuBuildEntry (ts ds : List String) (ks : List (List String)) (i : ℕ) (item : Item) :
    PyResult :=
  if i < ts.length ∧ i < ds.length ∧ i < ks.length then
    .err ⟨gpuTypeErrMsg, item, some "gpu_processing_error"⟩
  else
    .err ⟨"list index out of range", item, some "gpu_processing_error"⟩

/-- The result list built by `_process_batch_gpu` when the three batch calls
return (`for i, item in enumerate(batch)`). -/
def gpuResults (ts ds : List String) (ks : List (List String)) (batch : List Item) :
    List PyResult :=
  batch.enum.map fun p => gpuBuildEntry ts ds ks p.1 p.2

/-- Environment of one `process_batch` call: per chunk `c` and per in-chunk item
index `i` the worker behavior, per chunk the GPU environment, the retry-pass
environment (below), and the wall-clock duration `time.time() - self._start_time`. -/
structure BatchEnv where
  worker : ℕ → ℕ → WorkerBehavior
  gpu : ℕ → GpuChunkEnv
  retryDuration : ℕ → ℤ
  retryOutcome : ℕ → OptOutcome
  elapsed : ℤ

/-- `_process_single_batch` (`batch_processor.py` lines 207-218) together with
the inlined body of `_process_batch_gpu` (lines 294-357): if `enable_gpu` and
the chunk is larger than 20 items, the GPU path is attempted; on `ImportError`
or on any exception from the GPU batch calls it calls `_process_single_batch`
again — which re-selects the GPU path for the very same chunk, an unbounded
mutual recursion.  `fuel` bounds the recursion depth: `none` models the
non-terminating recursion (in CPython: a `RecursionError` that escapes the
call), and every claim-level statement about divergence is universally
quantified over `fuel`. -/
def processSingleBatchF (cfg : BatchConfig) (env : BatchEnv) (c : ℕ) :
    ℕ → List Item → Option (Except PyError (List PyResult))
  | 0, _ => none
  | fuel + 1, batch =>
    if cfg.enable_gpu ∧ batch.length > 20 then
      if (env.gpu c).importOk then
        match (env.gpu c).calls with
        | .returns ts ds ks => some (.ok (gpuResults ts ds ks batch))
        | .raises _ => processSingleBatchF cfg env c fuel batch
      else
        processSingleBatchF cfg env c fuel batch
    else
      some (processSingleBatchCpu (env.worker c) batch)

/-- `items[i:i + batch_size] for i in range(0, len(items), batch_size)` for a
positive step, `batch_processor.py` lines 180-183: repeatedly slice off the
first `bs` elements.  The structural `fuel` only serves Lean's termination
checker; `fuel = items.length` always suffices when `0 < bs` because every
step consumes at least one element. -/
def chunkGo {α : Type} (bs : ℕ) : ℕ → List α → List (List α)
  | 0, _ => []
  | _, [] => []
  | fuel + 1, a :: rest => ((a :: rest).take bs) :: chunkGo bs fuel ((a :: rest).drop bs)

/-- The chunk list of `_create_batches` for a positive `batch_size` (the
`bs = 0` case never produces chunks; see `createBatches` for the exception
Python raises there). -/
def pyChunks {α : Type} (bs : ℕ) (items : List α) : List (List α) :=
  chunkGo bs items.length items

/-- `_create_batches`, `batch_processor.py` lines 174-183.  `range(0, n, 0)`
raises `ValueError`, so a zero `batch_size` raises. -/
def createBatches {α : Type} (bs : ℕ) (items : List α) :
    Except PyError (List (List α)) :=
  if 0 < bs then .ok (pyChunks bs items) else
    .error (.valueError "range arg 3 must not be zero")

/-- `_process_batches_concurrent`, `batch_processor.py` lines 185-205:
`asyncio.gather(..., return_exceptions=False)` over the chunks.  A chunk
exception propagates out of the gather (the model picks the first erroring
chunk in list order; which of several concurrent exceptions wins is
environmental, and no theorem distinguishes them); a diverging chunk makes the
gather diverge. -/
def gatherChunks (cfg : BatchConfig) (env : BatchEnv) (fuel : ℕ) :
    ℕ → List (List Item) → Option (Except PyError (List (List PyResult)))
  | _, [] => some (.ok [])
  | c, chunk :: rest =>
    match processSingleBatchF cfg env c fuel chunk with
    | none => none
    | some (.error e) => some (.error e)
    | some (.ok rs) =>
      match gatherChunks cfg env fuel (c + 1) rest with
      | none => none
      | some (.error e) => some (.error e)
      | some (.ok rss) => some (.ok (rs :: rss))

/-- The merge loop of `process_batch`, `batch_processor.py` lines 121-128:
`isinstance(result, OptimizationResult)` decides between `successful` and
`failed`. -/
def splitResults : List PyResult → List PyResult × List FailedEntry
  | [] => ([], [])
  | r :: rest =>
    match r with
    | .opt _ => (r :: (splitResults rest).1, (splitResults rest).2)
    | .err e => ((splitResults rest).1, e :: (splitResults rest).2)

/-- `failed.remove(result)`: Python `list.remove` removes the first element
equal to the argument and raises `ValueError` when none is.  The elements of
`failed` are the failure dictionaries, compared against the argument with
Python `==` (see `PyResult`). -/
def removeValue : List FailedEntry → PyResult → Except PyError (List FailedEntry)
  | [], _ => .error (.valueError "list.remove x not in list")
  | e :: l, x =>
    if PyResult.err e = x then .ok l else (removeValue l x).map (e :: ·)

/-- `_retry_failed_items`, `batch_processor.py` lines 374-409: for the `k`-th
failed entry, the original item is recovered from the entry (`item.get('item',
item)`; every failure dictionary built by this module carries an `'item'` key)
and re-optimized under `asyncio.wait_for(..., timeout=self.config.timeout_per_item * 2)`.
If the invocation does not finish within the doubled timeout, the
`except Exception` branch records `{'error': 'Retry failed: ...', 'item': ...,
'type': 'retry_failed'}` (the `str` of a bare `asyncio.TimeoutError` is empty);
an exception from the invocation is recorded the same way. -/
def retryFailedItems (cfg : BatchConfig) (env : BatchEnv) :
    ℕ → List FailedEntry → List PyResult
  | _, [] => []
  | k, e :: rest =>
    (if env.retryDuration k ≤ cfg.timeout_per_item * 2 then
      match env.retryOutcome k with
      | .ok r => PyResult.opt r
      | .raises m => PyResult.err ⟨"Retry failed: " ++ m, e.item, some "retry_failed"⟩
    else
      PyResult.err ⟨"Retry failed: ", e.item, some "retry_failed"⟩)
    :: retryFailedItems cfg env (k + 1) rest

/-- The retry-merge loop of `process_batch`, `batch_processor.py` lines
137-142: each retry result that is an `OptimizationResult` is appended to
`successful` and then removed from `failed` with `failed.remove(result)`;
other retry results are dropped (the original entries stay in `failed`). -/
def retryMergeLoop :
    List PyResult → List PyResult → List FailedEntry →
    Except PyError (List PyResult × List FailedEntry)
  | [], s, f => .ok (s, f)
  | r :: rest, s, f =>
    match r with
    | .opt _ =>
      match removeValue f r with
      | .error e => .error e
      | .ok f' => retryMergeLoop rest (s ++ [r]) f'
    | .err _ => retryMergeLoop rest s f

/-- `BatchResult` dataclass, `batch_processor.py` lines 25-32; the `metadata`
dictionary of lines 166-171 is flattened into the last three fields
(`workers_used` is `max_workers`, not claim-relevant). -/
structure BatchResult where
  successful : List PyResult
  failed : List FailedEntry
  total_time : ℤ
  throughput : ℚ
  total_items : ℕ
  batch_count : ℕ
  gpu_enabled : Bool
  deriving Repr

/-- Lines 144-172 of `process_batch`: timing, throughput (`0` when the elapsed
time is not positive) and the returned `BatchResult`.  In every normally
returning execution `self._processed_count` equals the length of `successful`
(the only other increment site is the retry-merge loop, which either raises or
leaves the counts in step). -/
def mkBatchResult (cfg : BatchConfig) (env : BatchEnv) (nItems nBatches : ℕ)
    (s : List PyResult) (f : List FailedEntry) : BatchResult :=
  { successful := s
    failed := f
    total_time := env.elapsed
    throughput := if 0 < env.elapsed then (s.length : ℚ) / (env.elapsed : ℚ) else 0
    total_items := nItems
    batch_count := nBatches
    gpu_enabled := cfg.enable_gpu }

/-- `process_batch`, `batch_processor.py` lines 87-172: chunk, fan out, merge,
optionally run the single retry pass, build the `BatchResult`. -/
def processBatchF (cfg : BatchConfig) (env : BatchEnv) (fuel : ℕ) (items : List Item) :
    Option (Except PyError BatchResult) :=
  match createBatches cfg.batch_size items with
  | .error e => some (.error e)
  | .ok batches =>
    match gatherChunks cfg env fuel 0 batches with
    | none => none
    | some (.error e) => some (.error e)
    | some (.ok rss) =>
      if cfg.retry_failed ∧ (splitResults rss.flatten).2 ≠ [] then
        match retryMergeLoop (retryFailedItems cfg env 0 (splitResults rss.flatten).2)
            (splitResults rss.flatten).1 (splitResults rss.flatten).2 with
        | .error e => some (.error e)
        | .ok (s', f') =>
          some (.ok (mkBatchResult cfg env items.length batches.length s' f'))
      else
        some (.ok (mkBatchResult cfg env items.length batches.length
          (splitResults rss.flatten).1 (splitResults rss.flatten).2))

/-- The loop of `process_stream`, `batch_processor.py` lines 420-448: buffer
items into `window`, flush through `process_batch` when the window reaches
`batch_size` (the length check fires exactly when the window was just filled,
since items are appended one at a time), yield the `successful` entries of the
flush, and flush any non-empty remainder at source exhaustion.  `envs k` is
the environment of the `k`-th flush; `out` accumulates the yielded results. -/
def streamLoop (cfg : BatchConfig) (envs : ℕ → BatchEnv) (fuel : ℕ) :
    List Item → List Item → ℕ → List PyResult → Option (Except PyError (List PyResult))
  | [], window, k, out =>
    if window = [] then some (.ok out)
    else
      match processBatchF cfg (envs k) fuel window with
      | none => none
      | some (.error e) => some (.error e)
      | some (.ok br) => some (.ok (out ++ br.successful))
  | item :: rest, window, k, out =>
    if cfg.batch_size ≤ (window ++ [item]).length then
      match processBatchF cfg (envs k) fuel (window ++ [item]) with
      | none => none
      | some (.error e) => some (.error e)
      | some (.ok br) => streamLoop cfg envs fuel rest [] (k + 1) (out ++ br.successful)
    else
      streamLoop cfg envs fuel rest (window ++ [item]) k out

/-- `process_stream`, `batch_processor.py` lines 411-448, on a finite source. -/
def processStreamF (cfg : BatchConfig) (envs : ℕ → BatchEnv) (fuel : ℕ)
    (src : List Item) : Option (Except PyError (List PyResult)) :=
  streamLoop cfg envs fuel src [] 0 []

/-- The successive windows `process_stream` flushes for a given source
(continuing from a partially filled `window`): a flush happens whenever the
buffer reaches `batch_size`, and the final partial buffer is flushed iff
non-empty. -/
def windowSplit (bs : ℕ) : List Item → List Item → List (List Item)
  | [], window => if window = [] then [] else [window]
  | item :: rest, window =>
    if bs ≤ (window ++ [item]).length then (window ++ [item]) :: windowSplit bs rest []
    else windowSplit bs rest (window ++ [item])

/-- The `BatchResult` of each flush, window by window (reference point for the
stream theorems). -/
def flushBatchResults (cfg : BatchConfig) (envs : ℕ → BatchEnv) (fuel : ℕ) :
    ℕ → List (List Item) → Option (Except PyError (List BatchResult))
  | _, [] => some (.ok [])
  | k, w :: ws =>
    match processBatchF cfg (envs k) fuel w with
    | none => none
    | some (.error e) => some (.error e)
    | some (.ok br) =>
      match flushBatchResults cfg envs fuel (k + 1) ws with
      | none => none
      | some (.error e) => some (.error e)
      | some (.ok brs) => some (.ok (br :: brs))

/-!  ## The publishing queue (`queue_manager.py`)  -/

/-- `PublishStatus`, `publisher.py` lines 13-19. -/
inductive PublishStatus where
  | pending
  | processing
  | published
  | failed
  | scheduled
  deriving DecidableEq, Repr

/-- `PublishResult` dataclass, `publisher.py` lines 21-29.  Timestamps are
integers counting minutes (the only arithmetic on them in the modelled code is
`timedelta(minutes=...)` addition). -/
structure PublishResult where
  listing_id : String
  marketplace : String
  status : PublishStatus
  url : Option String := none
  error : Option String := none
  published_at : Option ℤ := none
  deriving DecidableEq, Repr

/-- `QueueItem` dataclass, `queue_manager.py` lines 20-27: `@dataclass(order=True)`
with every field except `priority` marked `compare=False`, so items are ordered
by `priority` alone.  `listing` is an opaque payload, modelled by an identifier.
`scheduled_at` is a timestamp in minutes. -/
structure QueueItem where
  priority : ℤ
  scheduled_at : ℤ
  listing : ℕ
  marketplace : String
  retries : ℕ := 0
  deriving DecidableEq, Repr

/-- The comparison `heapq` uses on `QueueItem`s (the generated dataclass
ordering restricted to the single compared field). -/
def qle (x y : QueueItem) : Prop := x.priority ≤ y.priority

instance : DecidableRel qle := fun x y => by
  unfold qle
  infer_instance

instance : IsTotal QueueItem qle :=
  ⟨fun x y => Int.le_total x.priority y.priority⟩

instance : IsTrans QueueItem qle :=
  ⟨fun _ _ _ h h' => le_trans h h'⟩

/-- `heapq.heappush(self.queue, item)`.  `heapq`'s documented contract is that
the queue holds its elements with `heap[0]` always a smallest one and `heappop`
returning a smallest one; the model realizes the contract with a
priority-sorted list.  The relative order of equal-priority items is
unspecified in the source (spec section 9 flags it as undefined), and no
theorem below depends on it. -/
def heapPush (it : QueueItem) (q : List QueueItem) : List QueueItem :=
  q.orderedInsert qle it

/-- State of the `PublishingQueue` processing loop (`queue_manager.py` lines
34-39 and 73-106): the priority queue, the number of active publish tasks
(`len(self.active_tasks)`), the current wall clock in minutes, and the trace of
dispatched items, each paired with the clock value at the moment
`asyncio.create_task(self._publish_item(item))` ran. -/
structure SchedState where
  queue : List QueueItem
  active : ℕ
  now : ℤ
  dispatched : List (QueueItem × ℤ)

/-- One transition of the scheduler.  `arrive` is `add_to_queue` (lines 46-71,
a `heappush` at any time).  `dispatch` is one iteration of the inner loop of
`_process_queue` (lines 82-97): it requires a non-empty queue, a free slot
(`len(self.active_tasks) < self.max_concurrent`) and the readiness check
`self.queue[0].scheduled_at <= now` — where `now` was read at the top of the
outer loop (line 79), so the value `tRead` the guard compares against satisfies
`tRead ≤ st.now` (the clock cannot run backwards between the read and the
dispatch).  The dispatched item is exactly the checked head, removed by
`heapq.heappop`.  `taskDone` is the done-callback of line 95 removing a task;
`tick` lets the wall clock advance (`await asyncio.sleep`). -/
inductive SchedStep (maxConcurrent : ℕ) : SchedState → SchedState → Prop
  | arrive (st : SchedState) (it : QueueItem) :
      SchedStep maxConcurrent st
        { st with queue := heapPush it st.queue }
  | dispatch (st : SchedState) (tRead : ℤ) (it : QueueItem) (rest : List QueueItem) :
      st.queue = it :: rest →
      st.active < maxConcurrent →
      tRead ≤ st.now →
      it.scheduled_at ≤ tRead →
      SchedStep maxConcurrent st
        { queue := rest
          active := st.active + 1
          now := st.now
          dispatched := st.dispatched ++ [(it, st.now)] }
  | taskDone (st : SchedState) :
      SchedStep maxConcurrent st { st with active := st.active - 1 }
  | tick (st : SchedState) (t : ℤ) :
      st.now ≤ t →
      SchedStep maxConcurrent st { st with now := t }

/-- The initial state of a `PublishingQueue` created at time `t0`: empty queue,
no active tasks, nothing dispatched. -/
def initState (t0 : ℤ) : SchedState :=
  { queue := [], active := 0, now := t0, dispatched := [] }

/-- States the scheduler can reach from its initial state. -/
def Reach (maxConcurrent : ℕ) (t0 : ℤ) (st : SchedState) : Prop :=
  Relation.ReflTransGen (SchedStep maxConcurrent) (initState t0) st

/-- The step `st → st'` dispatches item `it`: it is a scheduler transition that
appends `it` to the dispatch trace. -/
def Dispatches (maxConcurrent : ℕ) (st st' : SchedState) (it : QueueItem) : Prop :=
  SchedStep maxConcurrent st st' ∧
    ∃ t, st'.dispatched = st.dispatched ++ [(it, t)]

/-- Outcome of one `publisher.publish(item.listing)` invocation
(environmental: the publisher is an external capability). -/
inductive PublishOutcome where
  | ok (r : PublishResult)
  | raises (msg : String)
  deriving DecidableEq, Repr

/-- `_publish_item`, `queue_manager.py` lines 108-139.  `registered` is the set
of marketplaces with a registered publisher; `outcome` is what
`publisher.publish` does; `now` is `datetime.now()` in minutes at the failure
handler; `queue` is `self.queue`.  Returns the `PublishResult`, the queue after
the call, and the (possibly mutated) item: on an exception with
`item.retries < 3` the item's `retries` is incremented, its `scheduled_at` is
set to `now + timedelta(minutes=5 * item.retries)` with the incremented value,
and the item is pushed back onto the heap; otherwise the item is dropped. -/
def publishItem (registered : List String) (outcome : PublishOutcome) (now : ℤ)
    (item : QueueItem) (queue : List QueueItem) :
    PublishResult × List QueueItem × QueueItem :=
  if item.marketplace ∉ registered then
    (⟨"", item.marketplace, .failed, none,
        some ("No publisher registered for " ++ item.marketplace), none⟩,
      queue, item)
  else
    match outcome with
    | .ok r => (r, queue, item)
    | .raises msg =>
      if item.retries < 3 then
        let item' : QueueItem :=
          { item with
            retries := item.retries + 1
            scheduled_at := now + 5 * ((item.retries : ℤ) + 1) }
        (⟨"", item.marketplace, .failed, none, some msg, none⟩,
          heapPush item' queue, item')
      else
        (⟨"", item.marketplace, .failed, none, some msg, none⟩, queue, item)

/-- The item as mutated by `n` consecutive failing publish attempts (each one
the `except` branch of `_publish_item`); `nows k` is the wall clock at the
`k`-th attempt. -/
def failTimes (registered : List String) (nows : ℕ → ℤ) (item : QueueItem) :
    ℕ → QueueItem
  | 0 => item
  | n + 1 =>
    (publishItem registered (.raises "boom") (nows n)
      (failTimes registered nows item n) []).2.2

/-!  ## Lemmas and claim theorems  -/

/-- A failing publish attempt never pushes `retries` above 3: the increment is
guarded by `item.retries < 3` (`queue_manager.py` line 127). -/
theorem publishItem_retries_le (registered : List String) (outcome : PublishOutcome)
    (now : ℤ) (item : QueueItem) (queue : List QueueItem)
    (h : item.retries ≤ 3) :
    (publishItem registered outcome now item queue).2.2.retries ≤ 3 := by
  unfold publishItem
  split
  · exact h
  · match outcome with
    | .ok r => exact h
    | .raises msg =>
      by_cases hlt : item.retries < 3
      · simp only [if_pos hlt]
        omega
      · simp only [if_neg hlt]
        exact h

/-- C5, part one as an invariant: starting from `retries ≤ 3`, any number of
failing attempts keeps `retries ≤ 3`. -/
theorem failTimes_retries_le (registered : List String) (nows : ℕ → ℤ)
    (item : QueueItem) (h : item.retries ≤ 3) :
    ∀ n, (failTimes registered nows item n).retries ≤ 3 := by
  intro n
  induction n with
  | zero => exact h
  | succ n ih =>
    exact publishItem_retries_le registered (.raises "boom") (nows n)
      (failTimes registered nows item n) [] ih

/-- C5: for every queued item (created with `retries = 0`,
`queue_manager.py` line 54) and every sequence of publish failures,
`retries` never exceeds 3; and once `retries = 3`, a further failure returns a
terminal `FAILED` result and leaves the queue untouched — the item is not
re-inserted. -/
theorem retry_count_bounded_and_terminal
    (registered : List String) (nows : ℕ → ℤ) (item : QueueItem)
    (h0 : item.retries = 0)
    (now : ℤ) (msg : String) (exhausted : QueueItem) (q : List QueueItem)
    (hex : exhausted.retries = 3) :
    (∀ n, (failTimes registered nows item n).retries ≤ 3) ∧
    (publishItem registered (.raises msg) now exhausted q).1.status = .failed ∧
    (publishItem registered (.raises msg) now exhausted q).2.1 = q ∧
    (publishItem registered (.raises msg) now exhausted q).2.2 = exhausted := by
  refine ⟨failTimes_retries_le registered nows item (by omega), ?_⟩
  unfold publishItem
  split
  · exact ⟨rfl, rfl, rfl⟩
  · have hlt : ¬ exhausted.retries < 3 := by omega
    simp [hlt]

/-- A concrete freshly enqueued item and a concrete exhausted one. -/
def itemFresh : QueueItem := ⟨2, 0, 0, "ebay", 0⟩

def itemSpent : QueueItem := ⟨2, 0, 1, "ebay", 3⟩

theorem retry_count_bounded_and_terminal_witness :
    itemFresh.retries = 0 ∧ itemSpent.retries = 3 ∧
    ((∀ n, (failTimes ["ebay"] (fun _ => 0) itemFresh n).retries ≤ 3) ∧
      (publishItem ["ebay"] (.raises "api down") 7 itemSpent []).1.status = .failed ∧
      (publishItem ["ebay"] (.raises "api down") 7 itemSpent []).2.1 = [] ∧
      (publishItem ["ebay"] (.raises "api down") 7 itemSpent []).2.2 = itemSpent) :=
  ⟨rfl, rfl,
    retry_count_bounded_and_terminal ["ebay"] (fun _ => 0) itemFresh rfl
      7 "api down" itemSpent [] rfl⟩

/-- C6: a publish failure with `retries < 3` increments `retries`, reschedules
the item at `now + 5 minutes * retries` with the incremented value — the
linear backoff 5, 10, 15 minutes for the first, second and third retry — and
re-inserts it into the scheduler heap, while the returned result is `FAILED`.
(`queue_manager.py` lines 125-139; the source comment says "exponential
backoff" but `timedelta(minutes=5 * item.retries)` is linear, which is what
the spec records.) -/
theorem failure_linear_backoff_requeue
    (registered : List String) (msg : String) (now : ℤ)
    (item : QueueItem) (q : List QueueItem)
    (hreg : item.marketplace ∈ registered) (hlt : item.retries < 3) :
    (publishItem registered (.raises msg) now item q).2.2.retries
        = item.retries + 1 ∧
    (publishItem registered (.raises msg) now item q).2.2.scheduled_at
        = now + 5 * ((item.retries : ℤ) + 1) ∧
    (publishItem registered (.raises msg) now item q).2.2
        ∈ (publishItem registered (.raises msg) now item q).2.1 ∧
    (publishItem registered (.raises msg) now item q).1.status = .failed := by
  unfold publishItem
  rw [if_neg (by simpa using hreg)]
  simp [hlt, heapPush, List.mem_orderedInsert]

/-- A concrete item on its first retry: the failure at time 100 reschedules it
to 105 with `retries = 1`. -/
def itemOnce : QueueItem := ⟨2, 0, 2, "ebay", 0⟩

/-- The queue is always a valid heap (here: sorted by priority): `arrive` is an
ordered insert, `dispatch` removes the head, the other steps leave it alone. -/
theorem reach_sorted (mc : ℕ) (t0 : ℤ) (st : SchedState)
    (h : Reach mc t0 st) : st.queue.Sorted qle := by
  induction h with
  | refl => exact List.sorted_nil
  | tail hsteps hstep ih =>
    cases hstep with
    | arrive it => exact List.Sorted.orderedInsert it _ ih
    | dispatch tRead it rest hq hact htr hsch =>
      rw [hq] at ih
      exact ih.of_cons
    | taskDone => exact ih
    | tick t ht => exact ih

/-- C9: along every execution of the processing loop, every dispatched item was
due at dispatch time: the guard `self.queue[0].scheduled_at <= now`
(`queue_manager.py` line 84) compares against a clock value read at line 79,
no later than the dispatch itself, so `scheduled_at ≤ tRead ≤ now` holds for
the recorded dispatch time.  An item whose `scheduled_at` lies in the future is
never dispatched before that time. -/
theorem dispatch_only_when_due (mc : ℕ) (t0 : ℤ) (st : SchedState)
    (h : Reach mc t0 st) :
    ∀ p ∈ st.dispatched, p.1.scheduled_at ≤ p.2 := by
  induction h with
  | refl =>
    intro p hp
    simp [initState] at hp
  | tail hsteps hstep ih =>
    cases hstep with
    | arrive it => exact ih
    | dispatch tRead it rest hq hact htr hsch =>
      intro p hp
      rcases List.mem_append.mp hp with h1 | h1
      · exact ih p h1
      · simp only [List.mem_singleton] at h1
        rw [h1]
        exact le_trans hsch htr
    | taskDone => exact ih
    | tick t ht => exact ih

/-- An item due at time 3, dispatched at time 5 after a clock read at time 4. -/
def itemC9 : QueueItem := ⟨2, 3, 5, "ebay", 0⟩

def st1C9 : SchedState := { queue := heapPush itemC9 [], active := 0, now := 0, dispatched := [] }

def st2C9 : SchedState := { queue := heapPush itemC9 [], active := 0, now := 5, dispatched := [] }

def st3C9 : SchedState := { queue := [], active := 1, now := 5, dispatched := [(itemC9, 5)] }

theorem reach_st3C9 : Reach 6 0 st3C9 := by
  have h1 : SchedStep 6 (initState 0) st1C9 := SchedStep.arrive (initState 0) itemC9
  have h2 : SchedStep 6 st1C9 st2C9 := SchedStep.tick st1C9 5 (by norm_num [st1C9])
  have h3 : SchedStep 6 st2C9 st3C9 := by
    have hq : st2C9.queue = itemC9 :: [] := rfl
    exact SchedStep.dispatch st2C9 4 itemC9 [] hq (by norm_num [st2C9]) (by norm_num [st2C9])
      (by norm_num [itemC9])
  exact Relation.ReflTransGen.tail
    (Relation.ReflTransGen.tail (Relation.ReflTransGen.single h1) h2) h3

theorem dispatch_only_when_due_witness :
    (itemC9, (5 : ℤ)) ∈ st3C9.dispatched ∧ itemC9.scheduled_at ≤ 5 :=
  ⟨by simp [st3C9],
    dispatch_only_when_due 6 0 st3C9 reach_st3C9 (itemC9, 5) (by simp [st3C9])⟩

/-- C8: priority order is respected by every dispatch.  From any reachable
scheduler state still holding an item `a` of strictly smaller (more urgent)
priority value, the step that dispatches an item can never dispatch `b` with
`a.priority < b.priority`: `heappop` removes the head of the heap, which the
heap contract keeps minimal in priority, so the dispatched item's priority is
at most `a`'s.  Since the only way an item leaves the queue is being
dispatched, `a` is dispatched before `b` whenever both are queued — in
particular when `a` was submitted strictly after `b` (the statement quantifies
over all reachable states, so it covers every arrival order). -/
theorem priority_dispatch_order (mc : ℕ) (t0 : ℤ) (st st' : SchedState)
    (a b x : QueueItem) (hr : Reach mc t0 st)
    (ha : a ∈ st.queue) (hab : a.priority < b.priority)
    (hx : Dispatches mc st st' x) : x ≠ b := by
  obtain ⟨hstep, t, happ⟩ := hx
  cases hstep with
  | arrive it =>
    exfalso
    have := congrArg List.length happ
    simp at this
  | dispatch tRead it rest hq hact htr hsch =>
    have h2 : [(it, st.now)] = [(x, t)] := List.append_cancel_left happ
    have hix : it = x := by
      have := List.head_eq_of_cons_eq h2
      exact congrArg Prod.fst this
    intro hxb
    have hsorted := reach_sorted mc t0 st hr
    rw [hq] at hsorted ha
    rcases List.mem_cons.mp ha with h3 | h3
    · rw [h3, hix, hxb] at hab
      exact lt_irrefl _ hab
    · have h4 : qle it a := List.rel_of_sorted_cons hsorted a h3
      rw [hix, hxb] at h4
      exact absurd hab (not_lt.mpr h4)
  | taskDone =>
    exfalso
    have := congrArg List.length happ
    simp at this
  | tick t' ht =>
    exfalso
    have := congrArg List.length happ
    simp at this

/-- A NORMAL-priority item submitted first and an URGENT one submitted after
it, both ready at time 0. -/
def itemB8 : QueueItem := ⟨2, 0, 10, "ebay", 0⟩

def itemA8 : QueueItem := ⟨0, 0, 11, "ebay", 0⟩

def st8 : SchedState :=
  { queue := heapPush itemA8 (heapPush itemB8 []), active := 0, now := 0, dispatched := [] }

def st8' : SchedState :=
  { queue := [itemB8], active := 1, now := 0, dispatched := [(itemA8, 0)] }

theorem reach_st8 : Reach 6 0 st8 := by
  have h1 : SchedStep 6 (initState 0)
      { queue := heapPush itemB8 [], active := 0, now := 0, dispatched := [] } :=
    SchedStep.arrive (initState 0) itemB8
  have h2 : SchedStep 6
      { queue := heapPush itemB8 [], active := 0, now := 0, dispatched := [] } st8 :=
    SchedStep.arrive _ itemA8
  exact Relation.ReflTransGen.tail (Relation.ReflTransGen.single h1) h2

theorem priority_dispatch_order_witness :
    itemA8 ∈ st8.queue ∧ itemA8.priority < itemB8.priority ∧
      Dispatches 6 st8 st8' itemA8 ∧ itemA8 ≠ itemB8 := by
  have hq : st8.queue = itemA8 :: [itemB8] := by
    simp [st8, heapPush, List.orderedInsert, qle, itemA8, itemB8]
  have hd : Dispatches 6 st8 st8' itemA8 := by
    constructor
    · exact SchedStep.dispatch st8 0 itemA8 [itemB8] hq (by norm_num [st8])
        (by norm_num [st8]) (by norm_num [itemA8])
    · exact ⟨0, rfl⟩
  refine ⟨by rw [hq]; exact List.mem_cons_self _ _, by decide, hd, ?_⟩
  exact priority_dispatch_order 6 0 st8 st8' itemA8 itemB8 itemA8 reach_st8
    (by rw [hq]; exact List.mem_cons_self _ _) (by decide) hd

theorem failure_linear_backoff_requeue_witness :
    itemOnce.marketplace ∈ ["ebay"] ∧ itemOnce.retries < 3 ∧
    ((publishItem ["ebay"] (.raises "timeout") 100 itemOnce []).2.2.retries
        = itemOnce.retries + 1 ∧
      (publishItem ["ebay"] (.raises "timeout") 100 itemOnce []).2.2.scheduled_at
        = 100 + 5 * ((itemOnce.retries : ℤ) + 1) ∧
      (publishItem ["ebay"] (.raises "timeout") 100 itemOnce []).2.2
        ∈ (publishItem ["ebay"] (.raises "timeout") 100 itemOnce []).2.1 ∧
      (publishItem ["ebay"] (.raises "timeout") 100 itemOnce []).1.status = .failed) :=
  ⟨by decide, by decide,
    failure_linear_backoff_requeue ["ebay"] "timeout" 100 itemOnce []
      (by decide) (by decide)⟩

/-!  ### Concrete executions exhibiting the batch-processor defects  -/

/-- Two concrete well-formed product dictionaries and one optimizer output. -/
def itemA : Item := ⟨some "Laptop", some "Fast laptop", some "Electronics"⟩

def itemB : Item := ⟨some "Phone", none, none⟩

def optA : OptimizationResult := ⟨"TA", "DA", ["k1"], 1, 0, 1⟩

/-- The default configuration with the GPU strategy disabled, so every chunk
takes the CPU path. -/
def cfgCpu : BatchConfig := { enable_gpu := false }

/-- Environment for C1: the only item's worker completes but its optimize
invocation raises, producing a `processing_error` entry; the coordinated retry
of that entry finishes well within the doubled timeout and succeeds. -/
def envC1 : BatchEnv :=
  { worker := fun _ _ => .completes (.raises "optimizer failure")
    gpu := fun _ => ⟨false, .raises "unavailable"⟩
    retryDuration := fun _ => 1
    retryOutcome := fun _ => .ok optA
    elapsed := 1 }

/-- C1: the coordinated retry pass breaks on success.  In the concrete run the
single item fails on the first pass, the retry pass re-invokes the per-item
operation under `timeout_per_item * 2` and it succeeds — and then
`process_batch` raises `ValueError` from `failed.remove(result)`
(`batch_processor.py` line 140): `result` is an `OptimizationResult` while
`failed` holds only failure dictionaries, and Python equality between the two
is always false, so the claimed move from `failed` to `successful` never
happens; the call crashes instead of returning a `BatchResult`. -/
theorem retry_success_crashes_aggregation :
    retryFailedItems cfgCpu envC1 0 [⟨"optimizer failure", itemA, some "processing_error"⟩]
      = [PyResult.opt optA] ∧
    processBatchF cfgCpu envC1 1 [itemA] =
      some (.error (.valueError "list.remove x not in list")) := by
  constructor <;> rfl

/-- Environment for C2: first item succeeds, second item's optimize invocation
raises; the retry of the failed entry succeeds. -/
def envC2 : BatchEnv :=
  { worker := fun _ i => if i = 0 then .completes (.ok optA) else .completes (.raises "api error")
    gpu := fun _ => ⟨false, .raises "unavailable"⟩
    retryDuration := fun _ => 1
    retryOutcome := fun _ => .ok optA
    elapsed := 1 }

/-- C2: an exception escapes a well-formed `process_batch` call.  In the
concrete run both items are processed with full per-item isolation (the
item-level failure is converted to a structured entry), yet the call raises
`ValueError` during result aggregation instead of returning a `BatchResult`
(`failed.remove(result)`, `batch_processor.py` line 140). -/
theorem batch_exception_escapes :
    processBatchF cfgCpu envC2 1 [itemA, itemB] =
      some (.error (.valueError "list.remove x not in list")) := by
  rfl

/-- Environment for C4: the first item completes in time, the second worker is
still running when `timeout_per_item` expires. -/
def envC4 : BatchEnv :=
  { worker := fun _ i => if i = 0 then .completes (.ok optA) else .timesOut
    gpu := fun _ => ⟨false, .raises "unavailable"⟩
    retryDuration := fun _ => 1
    retryOutcome := fun _ => .ok optA
    elapsed := 1 }

/-- C4: a per-item timeout is not recorded as the structured entry
`{'error': 'Timeout', 'item': item}`.  The `except asyncio.TimeoutError`
handler evaluates `batch[futures.index(future)]` (`batch_processor.py` line
258), but `asyncio.as_completed` yields wrapper coroutines that are never
members of `futures`, so `.index` raises `ValueError`, which escapes the chunk
and the whole `process_batch` call: no failure entry identifying the timed-out
item is ever appended. -/
theorem timeout_not_recorded_raises :
    processSingleBatchCpu (envC4.worker 0) [itemA, itemB] =
      .error (.valueError cpuIndexErrMsg) ∧
    processBatchF cfgCpu envC4 1 [itemA, itemB] =
      some (.error (.valueError cpuIndexErrMsg)) := by
  constructor <;> rfl

/-- The default configuration (`enable_gpu = true`) and a 21-item chunk — the
smallest size that selects the GPU strategy. -/
def cfgGpuOn : BatchConfig := {}

def batch21 : List Item := List.replicate 21 itemA

/-- Environment for C3: the GPU optimizer import fails (`torch` or
`transformers` unavailable), every worker would complete fine on the CPU. -/
def envGpuMissing : BatchEnv :=
  { worker := fun _ _ => .completes (.ok optA)
    gpu := fun _ => ⟨false, .raises "unavailable"⟩
    retryDuration := fun _ => 1
    retryOutcome := fun _ => .ok optA
    elapsed := 1 }

/-- C3: the GPU-to-CPU fallback never terminates.  When the GPU import raises
`ImportError` for a chunk of more than 20 items with `enable_gpu` set, the
`except ImportError` handler calls `_process_single_batch` again
(`batch_processor.py` line 353), which re-selects the GPU path for the very
same chunk (line 215), an unbounded mutual recursion that never reaches the
CPU path and never yields any per-item result (in CPython the run dies with a
`RecursionError`): for every recursion budget the model returns `none`, both
for the chunk and for the whole `process_batch` call. -/
theorem gpu_fallback_never_terminates :
    (∀ c fuel, processSingleBatchF cfgGpuOn envGpuMissing c fuel batch21 = none) ∧
    (∀ fuel, processBatchF cfgGpuOn envGpuMissing fuel batch21 = none) := by
  have hcond : cfgGpuOn.enable_gpu = true ∧ batch21.length > 20 := ⟨rfl, by decide⟩
  have h1 : ∀ c fuel, processSingleBatchF cfgGpuOn envGpuMissing c fuel batch21 = none := by
    intro c fuel
    induction fuel with
    | zero => rfl
    | succ n ih =>
      have hneg : ¬ ((envGpuMissing.gpu c).importOk = true) := by
        simp [envGpuMissing]
      rw [processSingleBatchF, if_pos hcond, if_neg hneg]
      exact ih
  refine ⟨h1, fun fuel => ?_⟩
  have hg : gatherChunks cfgGpuOn envGpuMissing fuel 0 [batch21] = none := by
    simp only [gatherChunks, h1]
  have hc : createBatches cfgGpuOn.batch_size batch21 = .ok [batch21] := by rfl
  simp only [processBatchF, hc, hg]

/-!  ### Chunking and per-item result conservation (C7)  -/

theorem chunkGo_nil {α : Type} (bs : ℕ) : ∀ fuel, chunkGo bs fuel ([] : List α) = [] := by
  intro fuel
  cases fuel <;> rfl

/-- The chunks of `_create_batches` concatenate back to the input list. -/
theorem chunkGo_flatten {α : Type} (bs : ℕ) (hbs : 0 < bs) :
    ∀ (fuel : ℕ) (l : List α), l.length ≤ fuel → (chunkGo bs fuel l).flatten = l := by
  intro fuel
  induction fuel with
  | zero =>
    intro l hl
    cases l with
    | nil => rfl
    | cons a rest => simp at hl
  | succ n ih =>
    intro l hl
    cases l with
    | nil => rfl
    | cons a rest =>
      rw [chunkGo, List.flatten_cons, ih ((a :: rest).drop bs) ?_, List.take_append_drop]
      simp only [List.length_drop, List.length_cons]
      simp only [List.length_cons] at hl
      omega

/-- Every chunk is non-empty and no longer than `batch_size`. -/
theorem chunkGo_mem_bounds {α : Type} (bs : ℕ) (hbs : 0 < bs) :
    ∀ (fuel : ℕ) (l : List α), ∀ ch ∈ chunkGo bs fuel l, ch.length ≤ bs ∧ ch ≠ [] := by
  intro fuel
  induction fuel with
  | zero =>
    intro l ch hch
    simp [chunkGo] at hch
  | succ n ih =>
    intro l ch hch
    cases l with
    | nil => simp [chunkGo] at hch
    | cons a rest =>
      rw [chunkGo] at hch
      rcases List.mem_cons.mp hch with h | h
      · subst h
        constructor
        · simp [List.length_take]
        · obtain ⟨m, rfl⟩ : ∃ m, bs = m + 1 := ⟨bs - 1, by omega⟩
          simp [List.take_succ_cons]
      · exact ih _ ch h

/-- Every chunk except possibly the last has length exactly `batch_size`. -/
theorem chunkGo_dropLast_length {α : Type} (bs : ℕ) (_hbs : 0 < bs) :
    ∀ (fuel : ℕ) (l : List α), ∀ ch ∈ (chunkGo bs fuel l).dropLast, ch.length = bs := by
  intro fuel
  induction fuel with
  | zero =>
    intro l ch hch
    simp [chunkGo] at hch
  | succ n ih =>
    intro l ch hch
    cases l with
    | nil => simp [chunkGo] at hch
    | cons a rest =>
      rw [chunkGo] at hch
      cases hdrop : chunkGo bs n ((a :: rest).drop bs) with
      | nil => rw [hdrop] at hch; simp at hch
      | cons y ys =>
        rw [hdrop, List.dropLast_cons₂] at hch
        rcases List.mem_cons.mp hch with h | h
        · subst h
          have hlong : bs < (a :: rest).length := by
            by_contra hshort
            have hempty : (a :: rest).drop bs = [] := by
              apply List.drop_eq_nil_of_le
              omega
            rw [hempty, chunkGo_nil] at hdrop
            cases hdrop
          have hlen : bs < rest.length + 1 := by simpa using hlong
          simp [List.length_take]
          omega
        · rw [← hdrop] at h
          exact ih _ ch h

/-- When every worker completes, the CPU loop yields one entry per item. -/
theorem cpuLoop_length (behav : ℕ → WorkerBehavior) :
    ∀ (batch : List Item) (i : ℕ) (rs : List PyResult),
      cpuLoop behav i batch = .ok rs → rs.length = batch.length := by
  intro batch
  induction batch with
  | nil =>
    intro i rs h
    rw [cpuLoop] at h
    injection h with h
    rw [← h]
    rfl
  | cons a rest ih =>
    intro i rs h
    rw [cpuLoop] at h
    cases hb : behav i with
    | completes o =>
      rw [hb] at h
      cases hc : cpuLoop behav (i + 1) rest with
      | error e => rw [hc] at h; cases h
      | ok rs' =>
        rw [hc] at h
        injection h with h
        rw [← h, List.length_cons, ih (i + 1) rs' hc]
        rfl
    | timesOut => rw [hb] at h; cases h
    | poolFailure m => rw [hb] at h; cases h

/-- The GPU construction loop yields one entry per item. -/
theorem gpuResults_length (ts ds : List String) (ks : List (List String))
    (batch : List Item) : (gpuResults ts ds ks batch).length = batch.length := by
  simp [gpuResults]

/-- A chunk that returns normally yields one entry per item, whichever
strategy served it. -/
theorem processSingleBatchF_length (cfg : BatchConfig) (env : BatchEnv) (c : ℕ) :
    ∀ (fuel : ℕ) (batch : List Item) (rs : List PyResult),
      processSingleBatchF cfg env c fuel batch = some (.ok rs) →
      rs.length = batch.length := by
  intro fuel
  induction fuel with
  | zero =>
    intro batch rs h
    cases h
  | succ n ih =>
    intro batch rs h
    rw [processSingleBatchF] at h
    by_cases hgate : cfg.enable_gpu = true ∧ batch.length > 20
    · rw [if_pos hgate] at h
      by_cases himp : (env.gpu c).importOk = true
      · rw [if_pos himp] at h
        cases hcall : (env.gpu c).calls with
        | raises m => rw [hcall] at h; exact ih batch rs h
        | returns ts ds ks =>
          rw [hcall] at h
          injection h with h
          injection h with h
          rw [← h]
          exact gpuResults_length ts ds ks batch
      · rw [if_neg himp] at h
        exact ih batch rs h
    · rw [if_neg hgate] at h
      injection h with h
      exact cpuLoop_length (env.worker c) batch 0 rs h

/-- A normally returning fan-out yields, over all chunks, one entry per item. -/
theorem gatherChunks_length (cfg : BatchConfig) (env : BatchEnv) (fuel : ℕ) :
    ∀ (chunks : List (List Item)) (c : ℕ) (rss : List (List PyResult)),
      gatherChunks cfg env fuel c chunks = some (.ok rss) →
      rss.flatten.length = chunks.flatten.length := by
  intro chunks
  induction chunks with
  | nil =>
    intro c rss h
    injection h with h
    injection h with h
    rw [← h]
    rfl
  | cons ch rest ih =>
    intro c rss h
    rw [gatherChunks] at h
    cases h1 : processSingleBatchF cfg env c fuel ch with
    | none => rw [h1] at h; cases h
    | some r =>
      rw [h1] at h
      cases r with
      | error e => cases h
      | ok rs =>
        cases h2 : gatherChunks cfg env fuel (c + 1) rest with
        | none => rw [h2] at h; cases h
        | some r' =>
          rw [h2] at h
          cases r' with
          | error e => cases h
          | ok rss' =>
            injection h with h
            injection h with h
            rw [← h]
            simp only [List.flatten_cons, List.length_append]
            rw [processSingleBatchF_length cfg env c fuel ch rs h1, ih (c + 1) rss' h2]

/-- The merge of line 121-128 splits the entries without losing any. -/
theorem splitResults_length :
    ∀ rs : List PyResult,
      (splitResults rs).1.length + (splitResults rs).2.length = rs.length := by
  intro rs
  induction rs with
  | nil => rfl
  | cons r rest ih =>
    cases r with
    | opt o => simp only [splitResults, List.length_cons]; omega
    | err e => simp only [splitResults, List.length_cons]; omega

/-- A successful `list.remove` removes exactly one element. -/
theorem removeValue_length :
    ∀ (f : List FailedEntry) (x : PyResult) (f' : List FailedEntry),
      removeValue f x = .ok f' → f'.length + 1 = f.length := by
  intro f
  induction f with
  | nil => intro x f' h; cases h
  | cons e l ih =>
    intro x f' h
    rw [removeValue] at h
    by_cases he : PyResult.err e = x
    · rw [if_pos he] at h
      injection h with h
      rw [← h]
      rfl
    · rw [if_neg he] at h
      cases hr : removeValue l x with
      | error er => rw [hr] at h; cases h
      | ok l' =>
        rw [hr] at h
        injection h with h
        rw [← h, List.length_cons, List.length_cons, ih x l' hr]

/-- The retry-merge loop conserves the total number of entries whenever it
returns (each successful retry adds one to `successful` and removes one from
`failed`; each failed retry changes nothing). -/
theorem retryMergeLoop_length :
    ∀ (rrs s : List PyResult) (f : List FailedEntry) (s' : List PyResult)
      (f' : List FailedEntry),
      retryMergeLoop rrs s f = .ok (s', f') →
      s'.length + f'.length = s.length + f.length := by
  intro rrs
  induction rrs with
  | nil =>
    intro s f s' f' h
    injection h with h
    injection h with h1 h2
    rw [h1, h2]
  | cons r rest ih =>
    intro s f s' f' h
    cases r with
    | opt o =>
      rw [retryMergeLoop] at h
      cases hr : removeValue f (PyResult.opt o) with
      | error er => rw [hr] at h; cases h
      | ok f1 =>
        rw [hr] at h
        have h1 := ih (s ++ [PyResult.opt o]) f1 s' f' h
        have h2 := removeValue_length f (PyResult.opt o) f1 hr
        simp only [List.length_append, List.length_cons, List.length_nil] at h1 ⊢
        omega
    | err e =>
      rw [retryMergeLoop] at h
      exact ih s f s' f' h

/-- A `process_batch` call that returns a `BatchResult` accounts for every
input item exactly once across `successful` and `failed`. -/
theorem processBatchF_conservation (cfg : BatchConfig) (env : BatchEnv) (fuel : ℕ)
    (prods : List Item) (br : BatchResult)
    (hok : processBatchF cfg env fuel prods = some (.ok br)) :
    br.successful.length + br.failed.length = prods.length := by
  rw [processBatchF] at hok
  split at hok
  · cases hok
  · rename_i batches hcb
    have hbs : 0 < cfg.batch_size := by
      by_contra hbs
      rw [createBatches, if_neg hbs] at hcb
      cases hcb
    have hbatches : batches = pyChunks cfg.batch_size prods := by
      rw [createBatches, if_pos hbs] at hcb
      injection hcb with hcb
      exact hcb.symm
    have hflat : batches.flatten = prods := by
      rw [hbatches]
      exact chunkGo_flatten cfg.batch_size hbs prods.length prods le_rfl
    split at hok
    · cases hok
    · cases hok
    · rename_i rss hg
      have hlen1 : rss.flatten.length = prods.length := by
        rw [gatherChunks_length cfg env fuel batches 0 rss hg, hflat]
      have hlen2 := splitResults_length rss.flatten
      split at hok
      · split at hok
        · cases hok
        · rename_i s1 f1 hm
          injection hok with hok
          injection hok with hok
          rw [← hok]
          have h3 := retryMergeLoop_length _ _ _ s1 f1 hm
          simp only [mkBatchResult]
          omega
      · injection hok with hok
        injection hok with hok
        rw [← hok]
        simp only [mkBatchResult]
        omega

set_option maxRecDepth 4000 in
/-- C7: `_create_batches` splits any input into consecutive chunks of
`batch_size` with a possibly shorter, never empty, final chunk — concretely
250 items with `batch_size = 100` give exactly the chunks of sizes 100, 100,
50 — the chunks concatenate back to the input, and whenever `process_batch`
returns a `BatchResult`, its `successful` and `failed` lists together hold
exactly one entry per input item. -/
theorem process_batch_chunking_conservation
    {α : Type} (bs : ℕ) (items : List α)
    (cfg : BatchConfig) (env : BatchEnv) (fuel : ℕ) (prods : List Item)
    (br : BatchResult)
    (hbs : 0 < bs)
    (hok : processBatchF cfg env fuel prods = some (.ok br)) :
    createBatches bs items = .ok (pyChunks bs items) ∧
    (pyChunks bs items).flatten = items ∧
    (∀ ch ∈ pyChunks bs items, ch.length ≤ bs ∧ ch ≠ []) ∧
    (∀ ch ∈ (pyChunks bs items).dropLast, ch.length = bs) ∧
    (pyChunks 100 (List.range 250)).map List.length = [100, 100, 50] ∧
    br.successful.length + br.failed.length = prods.length := by
  refine ⟨?_, chunkGo_flatten bs hbs items.length items le_rfl,
    fun ch hch => chunkGo_mem_bounds bs hbs items.length items ch hch,
    fun ch hch => chunkGo_dropLast_length bs hbs items.length items ch hch,
    by decide,
    processBatchF_conservation cfg env fuel prods br hok⟩
  rw [createBatches, if_pos hbs]

/-- An environment in which every worker completes successfully. -/
def envAllOk : BatchEnv :=
  { worker := fun _ _ => .completes (.ok optA)
    gpu := fun _ => ⟨false, .raises "unavailable"⟩
    retryDuration := fun _ => 1
    retryOutcome := fun _ => .ok optA
    elapsed := 1 }

theorem process_batch_chunking_conservation_witness :
    (0 : ℕ) < 100 ∧
    processBatchF cfgCpu envAllOk 1 [itemA] =
      some (.ok (mkBatchResult cfgCpu envAllOk 1 1 [PyResult.opt optA] [])) ∧
    (createBatches 100 (List.range 250) = .ok (pyChunks 100 (List.range 250)) ∧
      (pyChunks 100 (List.range 250)).flatten = List.range 250 ∧
      (∀ ch ∈ pyChunks 100 (List.range 250), ch.length ≤ 100 ∧ ch ≠ []) ∧
      (∀ ch ∈ (pyChunks 100 (List.range 250)).dropLast, ch.length = 100) ∧
      (pyChunks 100 (List.range 250)).map List.length = [100, 100, 50] ∧
      (mkBatchResult cfgCpu envAllOk 1 1 [PyResult.opt optA] []).successful.length +
          (mkBatchResult cfgCpu envAllOk 1 1 [PyResult.opt optA] []).failed.length
        = ([itemA] : List Item).length) :=
  ⟨by decide, rfl,
    process_batch_chunking_conservation 100 (List.range 250) cfgCpu envAllOk 1 [itemA]
      (mkBatchResult cfgCpu envAllOk 1 1 [PyResult.opt optA] []) (by decide) rfl⟩

/-!  ### The stream windower (C10)  -/

/-- Appending to `out` the successes of a sequence of flushes, with divergence
and exceptions propagated — the continuation shape of the `process_stream`
loop. -/
def appendFlushes (out : List PyResult) :
    Option (Except PyError (List BatchResult)) → Option (Except PyError (List PyResult))
  | none => none
  | some (.error e) => some (.error e)
  | some (.ok brs) => some (.ok (out ++ (brs.map BatchResult.successful).flatten))

/-- One flush step commutes with the continuation of `appendFlushes`. -/
theorem appendFlushes_step (out : List PyResult) (br : BatchResult)
    (x : Option (Except PyError (List BatchResult))) :
    appendFlushes (out ++ br.successful) x =
      appendFlushes out
        (match x with
          | none => none
          | some (.error e) => some (.error e)
          | some (.ok brs) => some (.ok (br :: brs))) := by
  cases x with
  | none => rfl
  | some r =>
    cases r with
    | error e => rfl
    | ok brs => simp [appendFlushes]

/-- The `process_stream` loop is exactly: run `process_batch` on each window in
order and yield each flush's `successful` list. -/
theorem streamLoop_eq (cfg : BatchConfig) (envs : ℕ → BatchEnv) (fuel : ℕ) :
    ∀ (src window : List Item) (k : ℕ) (out : List PyResult),
      streamLoop cfg envs fuel src window k out =
        appendFlushes out
          (flushBatchResults cfg envs fuel k (windowSplit cfg.batch_size src window)) := by
  intro src
  induction src with
  | nil =>
    intro window k out
    rw [streamLoop, windowSplit]
    by_cases hw : window = []
    · rw [if_pos hw, if_pos hw]
      simp [flushBatchResults, appendFlushes]
    · rw [if_neg hw, if_neg hw, flushBatchResults]
      cases hpb : processBatchF cfg (envs k) fuel window with
      | none => rfl
      | some r =>
        cases r with
        | error e => rfl
        | ok br =>
          rw [flushBatchResults]
          simp [appendFlushes]
  | cons a rest ih =>
    intro window k out
    rw [streamLoop, windowSplit]
    by_cases hfull : cfg.batch_size ≤ (window ++ [a]).length
    · rw [if_pos hfull, if_pos hfull, flushBatchResults]
      cases hpb : processBatchF cfg (envs k) fuel (window ++ [a]) with
      | none => rfl
      | some r =>
        cases r with
        | error e => rfl
        | ok br =>
          exact (ih [] (k + 1) (out ++ br.successful)).trans (appendFlushes_step out br _)
    · rw [if_neg hfull, if_neg hfull]
      exact ih (window ++ [a]) k out

/-- The `successful` side of the merge loop holds only `OptimizationResult`
values (`isinstance` check, line 123). -/
theorem splitResults_fst_opt :
    ∀ rs : List PyResult, ∀ x ∈ (splitResults rs).1, ∃ r, x = PyResult.opt r := by
  intro rs
  induction rs with
  | nil => intro x hx; cases hx
  | cons r rest ih =>
    intro x hx
    cases r with
    | opt o =>
      rw [splitResults] at hx
      rcases List.mem_cons.mp hx with h | h
      · exact ⟨o, h⟩
      · exact ih x h
    | err e =>
      rw [splitResults] at hx
      exact ih x hx

/-- The retry-merge loop only ever appends `OptimizationResult` values to
`successful` (guarded by the `isinstance` check of line 138). -/
theorem retryMergeLoop_opt :
    ∀ (rrs s : List PyResult) (f : List FailedEntry) (s' : List PyResult)
      (f' : List FailedEntry),
      retryMergeLoop rrs s f = .ok (s', f') →
      (∀ x ∈ s, ∃ r, x = PyResult.opt r) →
      ∀ x ∈ s', ∃ r, x = PyResult.opt r := by
  intro rrs
  induction rrs with
  | nil =>
    intro s f s' f' h hs
    injection h with h
    injection h with h1 h2
    rw [← h1]
    exact hs
  | cons r rest ih =>
    intro s f s' f' h hs
    cases r with
    | opt o =>
      rw [retryMergeLoop] at h
      cases hr : removeValue f (PyResult.opt o) with
      | error er => rw [hr] at h; cases h
      | ok f1 =>
        rw [hr] at h
        refine ih (s ++ [PyResult.opt o]) f1 s' f' h ?_
        intro x hx
        rcases List.mem_append.mp hx with h1 | h1
        · exact hs x h1
        · exact ⟨o, by simpa using h1⟩
    | err e =>
      rw [retryMergeLoop] at h
      exact ih s f s' f' h hs

/-- Every entry of the `successful` list of a returned `BatchResult` is an
`OptimizationResult`; the failure dictionaries live only in `failed`. -/
theorem processBatchF_successful_opt (cfg : BatchConfig) (env : BatchEnv) (fuel : ℕ)
    (prods : List Item) (br : BatchResult)
    (hok : processBatchF cfg env fuel prods = some (.ok br)) :
    ∀ x ∈ br.successful, ∃ r, x = PyResult.opt r := by
  rw [processBatchF] at hok
  split at hok
  · cases hok
  · rename_i batches hcb
    split at hok
    · cases hok
    · cases hok
    · rename_i rss hg
      split at hok
      · split at hok
        · cases hok
        · rename_i s1 f1 hm
          injection hok with hok
          injection hok with hok
          rw [← hok]
          exact retryMergeLoop_opt _ _ _ s1 f1 hm (splitResults_fst_opt rss.flatten)
      · injection hok with hok
        injection hok with hok
        rw [← hok]
        exact splitResults_fst_opt rss.flatten

/-- Lifts the previous fact to every flush of a stream. -/
theorem flushBatchResults_opt (cfg : BatchConfig) (envs : ℕ → BatchEnv) (fuel : ℕ) :
    ∀ (ws : List (List Item)) (k : ℕ) (brs : List BatchResult),
      flushBatchResults cfg envs fuel k ws = some (.ok brs) →
      ∀ br ∈ brs, ∀ x ∈ br.successful, ∃ r, x = PyResult.opt r := by
  intro ws
  induction ws with
  | nil =>
    intro k brs h br hbr
    injection h with h
    injection h with h
    rw [← h] at hbr
    cases hbr
  | cons w rest ih =>
    intro k brs h br hbr
    rw [flushBatchResults] at h
    cases hpb : processBatchF cfg (envs k) fuel w with
    | none => rw [hpb] at h; cases h
    | some r =>
      rw [hpb] at h
      cases r with
      | error e => cases h
      | ok br0 =>
        cases hf : flushBatchResults cfg envs fuel (k + 1) rest with
        | none => rw [hf] at h; cases h
        | some r' =>
          rw [hf] at h
          cases r' with
          | error e => cases h
          | ok brs' =>
            injection h with h
            injection h with h
            rw [← h] at hbr
            rcases List.mem_cons.mp hbr with h1 | h1
            · rw [h1]
              exact processBatchF_successful_opt cfg (envs k) fuel w br0 hpb
            · exact ih (k + 1) brs' hf br h1

/-- C10: a finite stream run that returns yields exactly the concatenation, in
window order, of each flushed window's `BatchResult.successful`; failure
entries are never yielded (every yielded value is an `OptimizationResult`) and
are not surfaced to the stream consumer in any other way, so the number of
yielded results equals the sum of the per-flush success counts. -/
theorem process_stream_yields_successes (cfg : BatchConfig) (envs : ℕ → BatchEnv)
    (fuel : ℕ) (src : List Item) (out : List PyResult)
    (hok : processStreamF cfg envs fuel src = some (.ok out)) :
    ∃ brs : List BatchResult,
      flushBatchResults cfg envs fuel 0 (windowSplit cfg.batch_size src []) =
        some (.ok brs) ∧
      out = (brs.map BatchResult.successful).flatten ∧
      out.length = (brs.map (fun br => br.successful.length)).sum ∧
      ∀ x ∈ out, ∃ r, x = PyResult.opt r := by
  rw [processStreamF, streamLoop_eq] at hok
  cases hf : flushBatchResults cfg envs fuel 0 (windowSplit cfg.batch_size src []) with
  | none => rw [hf] at hok; cases hok
  | some r =>
    rw [hf] at hok
    cases r with
    | error e => cases hok
    | ok brs =>
      have hout : out = (brs.map BatchResult.successful).flatten := by
        have : appendFlushes [] (some (.ok brs)) =
            some (Except.ok ((brs.map BatchResult.successful).flatten)) := by
          simp [appendFlushes]
        rw [this] at hok
        injection hok with hok
        injection hok with hok
        exact hok.symm
      refine ⟨brs, rfl, hout, ?_, ?_⟩
      · rw [hout, List.length_flatten, List.map_map]
        rfl
      · intro x hx
        rw [hout] at hx
        rcases List.mem_flatten.mp hx with ⟨l, hl, hxl⟩
        rcases List.mem_map.mp hl with ⟨br, hbr, hlbr⟩
        rw [← hlbr] at hxl
        exact flushBatchResults_opt cfg envs fuel _ 0 brs hf br hbr x hxl

/-- A two-item window size, a three-item source: two flushes, three successes. -/
def cfgStream : BatchConfig := { batch_size := 2, enable_gpu := false }

theorem process_stream_yields_successes_witness :
    processStreamF cfgStream (fun _ => envAllOk) 1 [itemA, itemB, itemA] =
      some (.ok [PyResult.opt optA, PyResult.opt optA, PyResult.opt optA]) ∧
    (∃ brs : List BatchResult,
      flushBatchResults cfgStream (fun _ => envAllOk) 1 0
          (windowSplit cfgStream.batch_size [itemA, itemB, itemA] []) =
        some (.ok brs) ∧
      [PyResult.opt optA, PyResult.opt optA, PyResult.opt optA] =
        (brs.map BatchResult.successful).flatten ∧
      ([PyResult.opt optA, PyResult.opt optA, PyResult.opt optA] : List PyResult).length =
        (brs.map (fun br => br.successful.length)).sum ∧
      ∀ x ∈ ([PyResult.opt optA, PyResult.opt optA, PyResult.opt optA] : List PyResult),
        ∃ r, x = PyResult.opt r) :=
  ⟨rfl,
    process_stream_yields_successes cfgStream (fun _ => envAllOk) 1 [itemA, itemB, itemA]
      [PyResult.opt optA, PyResult.opt optA, PyResult.opt optA] rfl⟩

end Dropush
